import Mathlib

/-!
Verification development for the moltbook-mcp write-guard orchestrator and
challenge auto-solver.  JavaScript strings are modelled as `List Char`,
JSON bodies as an inductive `Json` tree, and date/time strings are
abstracted as their epoch-millisecond value written in decimal (so
`Date.parse` becomes decimal parsing and `toISOString` becomes decimal
printing; the ordering structure of ISO-8601 timestamps is preserved).
-/

attribute [local semireducible] Rat.mul Rat.add Rat.inv Rat.sub

namespace Moltbook

/-- JavaScript strings are modelled as lists of characters. -/
abbrev Str := List Char

/-- Turns a Lean string literal into the `Str` model. -/
def sl (s : String) : Str := s.data

/-- ASCII lower-casing of one character, as `String.prototype.toLowerCase`
acts on ASCII input (non-ASCII case mapping is not exercised here). -/
def lowerChar (c : Char) : Char :=
  if 'A' ≤ c ∧ c ≤ 'Z' then Char.ofNat (c.toNat + 32) else c

/-- Models `s.toLowerCase()`. -/
def jsLower (s : Str) : Str := s.map lowerChar

/-- The characters matched by the regex class `\s` (ASCII subset; the
exotic Unicode space characters are not exercised by this code base). -/
def isWsChar (c : Char) : Bool :=
  c == ' ' || c == '\t' || c == '\n' || c == '\x0d' || c == '\x0b' || c == '\x0c'

/-- Lower-case ASCII letter, the class `[a-z]`. -/
def isAlphaLower (c : Char) : Bool := 'a' ≤ c && c ≤ 'z'

/-- Line terminators, which the regex `.` does not match. -/
def isLineTerm (c : Char) : Bool :=
  c == '\n' || c == '\x0d' || c == ' ' || c == ' '

/-- Models `s.trim()`: strips leading and trailing whitespace. -/
def jsTrim (s : Str) : Str :=
  ((s.dropWhile isWsChar).reverse.dropWhile isWsChar).reverse

/-- Models `s.replace(/(.)\1+/g, "$1")` (used by `dedup` and inside
`normalizeChallenge` in verify.ts): collapses runs of consecutive equal
characters to a single character.  Because `.` does not match line
terminators, runs of line terminators are left untouched. -/
def dedupRun : Str → Str
  | [] => []
  | [a] => [a]
  | a :: b :: t =>
    if a == b && !isLineTerm a then dedupRun (b :: t) else a :: dedupRun (b :: t)

/-- Models `s.replace(/\s+/g, " ")`: every maximal run of whitespace
characters becomes a single space. -/
def collapseWs : Str → Str
  | [] => []
  | [a] => if isWsChar a then [' '] else [a]
  | a :: b :: t =>
    if isWsChar a then
      if isWsChar b then collapseWs (b :: t)
      else ' ' :: collapseWs (b :: t)
    else a :: collapseWs (b :: t)

/-- Models `s.replace(/[^a-z\s]/g, "")`. -/
def stripNonAlphaSpace (s : Str) : Str :=
  s.filter (fun c => isAlphaLower c || isWsChar c)

/-- Source: verify.ts `normalizeChallenge` — lowercase, strip all
non-alpha/non-space, collapse consecutive duplicate letters, collapse
whitespace, trim. -/
def normalizeChallenge (s : Str) : Str :=
  jsTrim (collapseWs (dedupRun (stripNonAlphaSpace (jsLower s))))

/-- Source: verify.ts `lightNormalize` — same pipeline but without the
duplicate-letter collapse. -/
def lightNormalize (s : Str) : Str :=
  jsTrim (collapseWs (stripNonAlphaSpace (jsLower s)))

/-- Decimal digit value. -/
def digVal (c : Char) : Option Nat :=
  if '0' ≤ c ∧ c ≤ '9' then some (c.toNat - 48) else none

/-- Parses a non-empty all-digit string into a natural number. -/
def parseNatDigits : Str → Option Nat
  | [] => none
  | l => l.foldl (fun acc c => match acc, digVal c with
      | some n, some d => some (n * 10 + d)
      | _, _ => none) (some 0)

/-- Abstraction of `Date.parse` on the ISO-timestamp strings this program
manipulates: a timestamp string is modelled as its epoch-millisecond value
in decimal, and parsing fails (`NaN`) on anything else. -/
def parseDateMs (s : Str) : Option Int :=
  (parseNatDigits s).map Int.ofNat

/-- Abstraction of `new Date(ms).toISOString()` under the same encoding. -/
def isoOfMs (t : Int) : Str := (toString t).data

/-! ## JSON value model -/

/-- JSON-compatible values as they appear in normalized response bodies.
Numbers are modelled as integers (the response fields this program reads
numerically are whole numbers of seconds / minutes). -/
inductive Json where
  | null
  | bool (b : Bool)
  | num (n : Int)
  | str (s : Str)
  | arr (items : List Json)
  | obj (fields : List (Str × Json))

/-- Property access `v[k]` on an object; `none` models `undefined`. -/
def Json.get? : Json → Str → Option Json
  | .obj fs, k => fs.lookup k
  | _, _ => none

/-- Collapses a present-but-`null` value to `none`, matching how `??`
treats both `null` and `undefined` as absent. -/
def nn : Option Json → Option Json
  | some .null => none
  | o => o

/-- Models `maybeObj?.k`: property access through optional chaining on a
value that may not be an object (non-objects have no such property). -/
def jsOptGet (v : Option Json) (k : Str) : Option Json :=
  match v with
  | some (.obj fs) => fs.lookup k
  | _ => none

/-- JavaScript truthiness of a JSON value. -/
def jsTruthy : Json → Bool
  | .null => false
  | .bool b => b
  | .num n => n != 0
  | .str s => !s.isEmpty
  | .arr _ => true
  | .obj _ => true

/-- Decimal representation of an integer, as `String()` produces it. -/
def intStr (n : Int) : Str := (toString n).data

mutual
/-- Models the `String(v)` coercion (ASCII-level behavior: strings kept,
numbers in decimal, `null` as "null", arrays joined by commas with
`null` elements blank, plain objects as "[object Object]"). -/
def jsString : Json → Str
  | .null => sl "null"
  | .bool b => if b then sl "true" else sl "false"
  | .num n => intStr n
  | .str s => s
  | .arr items => jsStringArr items
  | .obj _ => sl "[object Object]"

/-- Comma-joined stringification of array elements. -/
def jsStringArr : List Json → Str
  | [] => []
  | [x] => (match x with | .null => [] | v => jsString v)
  | x :: y :: t =>
    (match x with | .null => [] | v => jsString v) ++ ',' :: jsStringArr (y :: t)
end

mutual
/-- Source: util.ts `collectStrings` — recursively collects every string
value reachable in a JSON tree (strings directly, array elements and
object values at depth + 1), returning nothing once depth exceeds 5. -/
def collectStrings : Json → Nat → List Str
  | v, d =>
    if 5 < d then []
    else match v with
      | .str s => [s]
      | .arr items => collectStringsList items (d + 1)
      | .obj fs => collectStringsFields fs (d + 1)
      | _ => []

/-- Collects strings across the elements of an array value. -/
def collectStringsList : List Json → Nat → List Str
  | [], _ => []
  | x :: xs, d => collectStrings x d ++ collectStringsList xs d

/-- Collects strings across the values of an object's fields. -/
def collectStringsFields : List (Str × Json) → Nat → List Str
  | [], _ => []
  | (_, x) :: xs, d => collectStrings x d ++ collectStringsFields xs d
end

/-- Models `Array.prototype.join(sep)` on a list of strings. -/
def joinSep (sep : Str) : List Str → Str
  | [] => []
  | [s] => s
  | s :: t => s ++ sep ++ joinSep sep t

/-- Models `hay.includes(needle)`. -/
def includes (hay needle : Str) : Bool := decide (needle <:+: hay)

/-! ## Normalized API responses and the response signal extractors -/

/-- Source: util.ts `ApiResponse` — the normalized response shape produced
by the transport layer.  Headers are name/value pairs (names matched
case-insensitively by `Headers.get`). -/
structure ApiResponse where
  ok : Bool
  status : Int
  headers : List (Str × Str)
  body : Json

/-- Case-insensitive header lookup, as `Headers.get`. -/
def headerGet (hs : List (Str × Str)) (k : Str) : Option Str :=
  (hs.find? (fun p => jsLower p.1 == jsLower k)).map Prod.snd

/-- Result type of `extractSuspension`: a reason string and the raw value
of the first until-like field. -/
structure SuspensionSignal where
  reason : Str
  until_ : Option Json

/-- Source: util.ts `extractSuspension` — scans the `status` field and
every collected string for suspension/ban vocabulary, and on a hit
returns the reason and expiry fields. -/
def extractSuspension (r : ApiResponse) : Option SuspensionSignal :=
  let body := r.body
  let status := jsLower (jsString (match nn (body.get? (sl "status")) with
    | some v => v
    | none => .str []))
  let text := jsLower (joinSep (sl " | ") (collectStrings body 0))
  let active :=
    includes status (sl "suspend") ||
    includes status (sl "ban") ||
    includes text (sl "suspended") ||
    includes text (sl "temporary ban") ||
    includes text (sl "temp ban")
  if active then
    some { reason := jsString (match nn (body.get? (sl "reason")) <|>
                               nn (body.get? (sl "error")) <|>
                               nn (body.get? (sl "message")) with
             | some v => v
             | none => .str (sl "Account suspended"))
           until_ := nn (body.get? (sl "suspended_until")) <|>
                     nn (body.get? (sl "ban_expires_at")) <|>
                     nn (body.get? (sl "until")) }
  else none

/-- Parses a decimal numeral with optional sign and fractional part, the
`Number(string)` coercion restricted to plain decimal notation; the
whitespace-trimmed empty string converts to 0, anything unparseable to
`NaN`, modelled as `none`. -/
def parseNumQ (s : Str) : Option ℚ :=
  let t := jsTrim s
  if t.isEmpty then some 0
  else
    let (sign, digits) : ℚ × Str :=
      match t with
      | '-' :: rest => (-1, rest)
      | '+' :: rest => (1, rest)
      | _ => (1, t)
    match digits.splitOn '.' with
    | [ip] => (parseNatDigits ip).map (fun n => sign * n)
    | [ip, fp] =>
      if ip.isEmpty && fp.isEmpty then none
      else
        let ipv : Option Nat := if ip.isEmpty then some 0 else parseNatDigits ip
        let fpv : Option Nat := if fp.isEmpty then some 0 else parseNatDigits fp
        match ipv, fpv with
        | some i, some f => some (sign * (i + (f : ℚ) / (10 : ℚ) ^ fp.length))
        | _, _ => none
    | _ => none

/-- Models the `Number(v)` coercion on JSON values; `none` is `NaN`.
Singleton arrays coerce through their element's string form, which for
the numeric payloads considered here matches coercing the element. -/
def jsNumber : Json → Option ℚ
  | .null => some 0
  | .bool b => some (if b then 1 else 0)
  | .num n => some n
  | .str s => parseNumQ s
  | .arr [] => some 0
  | .arr [x] => match x with
      | .num n => some n
      | .str s => parseNumQ s
      | .null => some 0
      | _ => none
  | .arr _ => none
  | .obj _ => none

/-- Numeric coercion of a body field: an absent field is `undefined`,
which `Number` turns into `NaN`. -/
def numField (body : Json) (k : Str) : Option ℚ :=
  match body.get? k with
  | some j => jsNumber j
  | none => none

/-- Truthiness of a coerced number: `NaN` and 0 are falsy. -/
def truthyNum : Option ℚ → Bool
  | some q => q != 0
  | none => false

/-- Remaining seconds until a header date, floored and clamped at 0. -/
def retryFromDate (now : Int) (h : Str) : Int :=
  match parseDateMs h with
  | some d => max 0 ((d - now) / 1000)
  | none => 0

/-- Source: util.ts `extractRetrySeconds` — body fields first (seconds,
minutes × 60, generic), then the retry-after header as delta-seconds or
as a date converted to remaining whole seconds clamped at 0. -/
def extractRetrySeconds (now : Int) (r : ApiResponse) : Int :=
  let a := numField r.body (sl "retry_after_seconds")
  let b := numField r.body (sl "retry_after_minutes")
  let c := numField r.body (sl "retry_after")
  let fromBody : ℚ :=
    if truthyNum a then a.getD 0
    else if truthyNum b then b.getD 0 * 60
    else if truthyNum c then c.getD 0
    else 0
  if 0 < fromBody then ⌊fromBody⌋
  else
    match headerGet r.headers (sl "retry-after") with
    | none => 0
    | some h =>
      match parseNumQ h with
      | some q =>
        if 0 < q then ⌊q⌋
        else retryFromDate now h
      | none => retryFromDate now h

/-- JavaScript falsiness of a possibly-absent value (`!x`). -/
def jsFalsyOpt : Option Json → Bool
  | none => true
  | some j => !jsTruthy j

/-- Restriction of a possibly-absent value to strings, as
`typeof x === "string" ? x : null`. -/
def asStr : Option Json → Option Str
  | some (.str s) => some s
  | _ => none

/-- The coalesced verification-code lookup of util.ts
`extractVerification`: `body.verification_code ?? body.verificationCode
?? challengeObj?.verification_code ?? challengeObj?.code ??
data?.verification_code ?? null`. -/
def verificationCodeRaw (body : Json) : Option Json :=
  nn (body.get? (sl "verification_code")) <|>
  nn (body.get? (sl "verificationCode")) <|>
  nn (jsOptGet (body.get? (sl "challenge")) (sl "verification_code")) <|>
  nn (jsOptGet (body.get? (sl "challenge")) (sl "code")) <|>
  nn (jsOptGet (body.get? (sl "data")) (sl "verification_code"))

/-- The keyword gate of `extractVerification`: the case-insensitive test
`/verification|verify|challenge|math|captcha/i` on the joined strings. -/
def hasVerificationKeyword (body : Json) : Bool :=
  let text := jsLower (joinSep (sl " | ") (collectStrings body 0))
  includes text (sl "verification") || includes text (sl "verify") ||
    includes text (sl "challenge") || includes text (sl "math") ||
    includes text (sl "captcha")

/-- The coalesced challenge-text lookup of `extractVerification`. -/
def challengeTextRaw (body : Json) : Option Json :=
  nn (jsOptGet (body.get? (sl "challenge")) (sl "challenge")) <|>
  nn (jsOptGet (body.get? (sl "challenge")) (sl "prompt")) <|>
  nn (jsOptGet (body.get? (sl "challenge")) (sl "question")) <|>
  nn (body.get? (sl "challenge_text")) <|>
  nn (body.get? (sl "math_challenge")) <|>
  nn (body.get? (sl "question"))

/-- The coalesced prompt lookup of `extractVerification` (kept raw: the
source casts it to `string | null` without a runtime check). -/
def promptRaw (body : Json) : Option Json :=
  nn (jsOptGet (body.get? (sl "challenge")) (sl "prompt")) <|>
  nn (body.get? (sl "hint")) <|>
  nn (body.get? (sl "message")) <|>
  nn (body.get? (sl "error"))

/-- The coalesced expiry lookup of `extractVerification`. -/
def expiresRaw (body : Json) : Option Json :=
  nn (jsOptGet (body.get? (sl "challenge")) (sl "expires_at")) <|>
  nn (body.get? (sl "expires_at"))

/-- The verification payload extracted from a response. -/
structure Verification where
  verification_code : Option Str
  challenge : Option Str
  prompt : Option Json
  expires_at : Option Json

/-- Source: util.ts `extractVerification` (the version with the final
zombie-rejection check) — a keyword gate, a success-status gate requiring
an explicit code, and a final rejection of outputs with neither a code
nor string challenge text. -/
def extractVerification (r : ApiResponse) : Option Verification :=
  let body := r.body
  let code := verificationCodeRaw body
  if !hasVerificationKeyword body && jsFalsyOpt code then none
  else if r.status < 400 && jsFalsyOpt code then none
  else if jsFalsyOpt code && (asStr (challengeTextRaw body)).isNone then none
  else
    some { verification_code := match code with
             | some j => if jsTruthy j then some (jsString j) else none
             | none => none
           challenge := asStr (challengeTextRaw body)
           prompt := promptRaw body
           expires_at := expiresRaw body }

/-! ## Challenge solver (verify.ts) -/

/-- Association list of number words to values. -/
abbrev NumDict := List (Str × Nat)

/-- A built dictionary: entries with deduplicated keys plus the key list
sorted longest-first for greedy matching. -/
structure WordDict where
  entries : NumDict
  keys : List Str

/-- Stable insertion keeping the longest keys first (ties keep original
order), modelling `Object.keys(dict).sort((a, b) => b.length - a.length)`
with the stable `Array.prototype.sort`. -/
def insertByLen (l : List Str) (x : Str) : List Str :=
  match l with
  | [] => [x]
  | y :: t => if x.length ≤ y.length then y :: insertByLen t x else x :: y :: t

/-- Sorts keys longest-first, stably. -/
def sortKeysDesc (l : List Str) : List Str := l.foldl insertByLen []

/-- Source: verify.ts `buildDict` — dedups every key and keeps a
longest-first key list. -/
def buildDict (src : NumDict) : WordDict :=
  let entries := src.map (fun p => (dedupRun p.1, p.2))
  { entries := entries, keys := sortKeysDesc (entries.map Prod.fst) }

/-- Source: verify.ts `ONES_SRC` — ones and teens, 0 to 19. -/
def ONES_SRC : NumDict :=
  [(sl "zero", 0), (sl "one", 1), (sl "two", 2), (sl "three", 3),
   (sl "four", 4), (sl "five", 5), (sl "six", 6), (sl "seven", 7),
   (sl "eight", 8), (sl "nine", 9), (sl "ten", 10), (sl "eleven", 11),
   (sl "twelve", 12), (sl "thirteen", 13), (sl "fourteen", 14),
   (sl "fifteen", 15), (sl "sixteen", 16), (sl "seventeen", 17),
   (sl "eighteen", 18), (sl "nineteen", 19)]

/-- Source: verify.ts `TENS_SRC` — tens, 20 to 90. -/
def TENS_SRC : NumDict :=
  [(sl "twenty", 20), (sl "thirty", 30), (sl "forty", 40), (sl "fifty", 50),
   (sl "sixty", 60), (sl "seventy", 70), (sl "eighty", 80), (sl "ninety", 90)]

/-- The built ones/teens dictionary. -/
def ONES : WordDict := buildDict ONES_SRC

/-- The built tens dictionary. -/
def TENS : WordDict := buildDict TENS_SRC

/-- Source: verify.ts `FILLER` — filler and unit words skipped during
number extraction, each stored after dedup. -/
def FILLER : List Str :=
  [sl "um", sl "uh", sl "uhm", sl "like", sl "so", sl "but", sl "the",
   sl "a", sl "an", sl "is", sl "are", sl "at", sl "of", sl "in", sl "its",
   sl "it", sl "this", sl "that", sl "and", sl "or", sl "to", sl "by",
   sl "for", sl "on", sl "if", sl "be", sl "do", sl "has", sl "have",
   sl "was", sl "were", sl "with", sl "what", sl "whats", sl "how",
   sl "much", sl "many", sl "force", sl "total", sl "newtons",
   sl "notons", sl "neutons", sl "netons", sl "meters", sl "centimeters",
   sl "claw", sl "claws", sl "antena", sl "touch", sl "lobster",
   sl "lobsters", sl "sped", sl "then", sl "when", sl "from",
   sl "cmentiners"].map dedupRun

/-- Source: verify.ts `isSubsequence` — every character of `word` appears
in `candidate` in order. -/
def isSubsequence : Str → Str → Bool
  | [], _ => true
  | _ :: _, [] => false
  | w :: ws, c :: cs => if w == c then isSubsequence ws cs else isSubsequence (w :: ws) cs

/-- First key of the longest-first list accepted by the length-bounded
subsequence test (candidate at most 2 longer and at most 1 shorter than
the dictionary word). -/
def fuzzyScan (cand : Str) : List Str → Option Str
  | [] => none
  | w :: ws =>
    if cand.length ≤ w.length + 2 && w.length ≤ cand.length + 1 && isSubsequence w cand
    then some w
    else fuzzyScan cand ws

/-- Source: verify.ts `fuzzyMatch` — exact dictionary hit first, then the
bounded subsequence scan over the longest-first key list. -/
def fuzzyMatch (cand : Str) (db : WordDict) : Option (Str × Nat) :=
  match db.entries.lookup cand with
  | some v => some (cand, v)
  | none =>
    match fuzzyScan cand db.keys with
    | some w => (db.entries.lookup w).map (fun v => (w, v))
    | none => none

/-- Joined candidate made of `span` tokens starting the token list. -/
def spanJoin (toks : List Str) (span : Nat) : Str := (toks.take span).flatten

/-- Worker iterating the lookahead span candidates. -/
def onesLookaheadGo (toks : List Str) (span : Nat) : List Nat → Option (Nat × Nat)
  | [] => none
  | os :: rest =>
    if span + os ≤ toks.length then
      match fuzzyMatch (spanJoin (toks.drop span) os) ONES with
      | some (_, v) => if 1 ≤ v && v ≤ 9 then some (v, os) else onesLookaheadGo toks span rest
      | none => onesLookaheadGo toks span rest
    else onesLookaheadGo toks span rest

/-- The ones-word lookahead after a tens match: tries joining 1 then 2
tokens after the tens span for a ones value between 1 and 9. -/
def onesLookahead (toks : List Str) (span : Nat) : Option (Nat × Nat) :=
  onesLookaheadGo toks span [1, 2]

/-- Worker iterating the join spans in order. -/
def tryMatchGo (toks : List Str) : List Nat → Option (Nat × Nat)
  | [] => none
  | span :: rest =>
    if span ≤ toks.length then
      let cand := spanJoin toks span
      match fuzzyMatch cand TENS with
      | some (_, tv) =>
        match onesLookahead toks span with
        | some (ov, os) => some (tv + ov, span + os)
        | none => some (tv, span)
      | none =>
        match fuzzyMatch cand ONES with
        | some (_, v) => some (v, span)
        | none => tryMatchGo toks rest
    else tryMatchGo toks rest

/-- One attempt at the head of the token list: tries spans 3, 2, 1,
checking the tens dictionary first (with the compound lookahead) and then
the ones dictionary; returns the value found and the tokens consumed. -/
def tryMatchAt (toks : List Str) : Option (Nat × Nat) :=
  tryMatchGo toks [3, 2, 1]

/-- The extraction loop of `extractNumbers`, advancing by the consumed
span on a match and by one token otherwise; fuel bounds the recursion by
the token count (each step consumes at least one token). -/
def extractLoop : Nat → List Str → List ℚ
  | 0, _ => []
  | _, [] => []
  | fuel + 1, toks@(_ :: rest) =>
    match tryMatchAt toks with
    | some (v, consumed) => (v : ℚ) :: extractLoop fuel (toks.drop consumed)
    | none => extractLoop fuel rest

/-- Source: verify.ts `extractNumbers` — tokenizes on spaces, drops
empty and filler tokens, then greedily extracts number words. -/
def extractNumbers (text : Str) : List ℚ :=
  let toks := (text.splitOn ' ').filter (fun t => !t.isEmpty && !FILLER.contains t)
  extractLoop toks.length toks

/-- The arithmetic operations of the solver. -/
inductive Op where
  | add
  | sub
  | mul
  | div
deriving DecidableEq

/-- Word-boundary keyword test on lightly-normalized text (which contains
only lower-case letters and single spaces, so regex word boundaries fall
exactly at token edges): whole-word match or, when `star` is set, a token
merely starting with the keyword (the trailing `\w*`). -/
def hasKeyword (text : Str) (kw : Str) (star : Bool) : Bool :=
  (text.splitOn ' ').any (fun t => if star then kw.isPrefixOf t else t == kw)

/-- Source: verify.ts `detectOperation` — multiply keywords, then divide,
then subtract, defaulting to addition. -/
def detectOperation (text : Str) : Op :=
  if hasKeyword text (sl "times") false || hasKeyword text (sl "multipl") true ||
     hasKeyword text (sl "product") false then .mul
  else if hasKeyword text (sl "divid") true || hasKeyword text (sl "ratio") false ||
     hasKeyword text (sl "split") false then .div
  else if hasKeyword text (sl "subtract") true || hasKeyword text (sl "slow") true ||
     hasKeyword text (sl "remain") true || hasKeyword text (sl "minus") false ||
     hasKeyword text (sl "less") false || hasKeyword text (sl "reduce") true then .sub
  else .add

/-- Source: verify.ts `compute` — requires at least two numbers; add
reduces with initial 0, multiply reduces from the first element, subtract
reduces from the first element, and divide uses only the first two
numbers with a zero-divisor guard. -/
def compute (numbers : List ℚ) (op : Op) : Option ℚ :=
  if numbers.length < 2 then none
  else
    match op, numbers with
    | .add, _ => some (numbers.foldl (· + ·) 0)
    | .sub, x :: rest => some (rest.foldl (· - ·) x)
    | .mul, x :: rest => some (rest.foldl (· * ·) x)
    | .div, x :: y :: _ => if y = 0 then none else some (x / y)
    | _, _ => none

/-! ## Digit-expression path

The source evaluates the selected expression with the JavaScript engine
(after rewriting `^` to `**`) and rejects non-finite results.  The model
evaluates the same grammar over `ℚ`, treating every operation whose
JavaScript result would be non-finite (division by zero, zero to a
negative power, fractional exponents) as failure, which the caller turns
into `null` exactly as the source's finiteness check does. -/

/-- Decimal digit test (`\d`). -/
def isDigitCh (c : Char) : Bool := '0' ≤ c && c ≤ '9'

/-- The character class `[\d+\-*/().^ ]` of the candidate-run regex. -/
def isExprChar (c : Char) : Bool :=
  isDigitCh c || c == '+' || c == '-' || c == '*' || c == '/' ||
    c == '(' || c == ')' || c == '.' || c == '^' || c == ' '

/-- The operator class `[+\-*/^]` of the candidate filter. -/
def isOpChar (c : Char) : Bool :=
  c == '+' || c == '-' || c == '*' || c == '/' || c == '^'

/-- Maximal runs of expression characters, as `matchAll` finds them. -/
def exprRunsAux : Str → Str → List Str
  | [], acc => if acc.isEmpty then [] else [acc.reverse]
  | c :: t, acc =>
    if isExprChar c then exprRunsAux t (c :: acc)
    else if acc.isEmpty then exprRunsAux t []
    else acc.reverse :: exprRunsAux t []

/-- All maximal runs of expression characters in a string. -/
def exprRuns (s : Str) : List Str := exprRunsAux s []

/-- Numeric literal with at most one decimal point (a bare point or a
second point is a syntax error). -/
def parseNumLit (s : Str) : Option ℚ :=
  match s.splitOn '.' with
  | [ip] => (parseNatDigits ip).map (fun n => (n : ℚ))
  | [ip, fp] =>
    if ip.isEmpty && fp.isEmpty then none
    else
      let ipv : Option Nat := if ip.isEmpty then some 0 else parseNatDigits ip
      let fpv : Option Nat := if fp.isEmpty then some 0 else parseNatDigits fp
      match ipv, fpv with
      | some i, some f => some ((i : ℚ) + (f : ℚ) / (10 : ℚ) ^ fp.length)
      | _, _ => none
  | _ => none

/-- Expression tokens. -/
inductive Tok where
  | num (q : ℚ)
  | plus
  | minus
  | star
  | slash
  | pow
  | lparen
  | rparen
deriving DecidableEq

/-- Tokenizer worker; the fuel equals the input length so it never runs
out.  `**` (the rewritten form of `^`) and a bare `^` both become the
exponentiation token. -/
def tokenizeGo : Nat → Str → Option (List Tok)
  | _, [] => some []
  | 0, _ :: _ => none
  | fuel + 1, c :: rest =>
    if c == ' ' then tokenizeGo fuel rest
    else if c == '(' then (tokenizeGo fuel rest).map (Tok.lparen :: ·)
    else if c == ')' then (tokenizeGo fuel rest).map (Tok.rparen :: ·)
    else if c == '+' then (tokenizeGo fuel rest).map (Tok.plus :: ·)
    else if c == '-' then (tokenizeGo fuel rest).map (Tok.minus :: ·)
    else if c == '/' then (tokenizeGo fuel rest).map (Tok.slash :: ·)
    else if c == '^' then (tokenizeGo fuel rest).map (Tok.pow :: ·)
    else if c == '*' then
      match rest with
      | '*' :: rest2 => (tokenizeGo fuel rest2).map (Tok.pow :: ·)
      | _ => (tokenizeGo fuel rest).map (Tok.star :: ·)
    else if isDigitCh c || c == '.' then
      let lit := (c :: rest).takeWhile (fun x => isDigitCh x || x == '.')
      let rest2 := rest.dropWhile (fun x => isDigitCh x || x == '.')
      match parseNumLit lit with
      | some q => (tokenizeGo fuel rest2).map (Tok.num q :: ·)
      | none => none
    else none

/-- Tokenizes an expression candidate. -/
def tokenize (s : Str) : Option (List Tok) := tokenizeGo s.length s

/-- Exponentiation over ℚ restricted to the finite cases: integral
exponents, with zero to a negative power (Infinity in JavaScript)
rejected; fractional exponents (float `Math.pow`) are out of the model. -/
def qpow (b e : ℚ) : Option ℚ :=
  if e.den = 1 then
    if 0 ≤ e.num then some (b ^ e.num.toNat)
    else if b = 0 then none
    else some (b ^ e.num)
  else none

mutual
/-- Additive level: a product followed by `+`/`-` chains. -/
def evalAdd : Nat → List Tok → Option (ℚ × List Tok)
  | 0, _ => none
  | fuel + 1, ts =>
    match evalMul fuel ts with
    | some (v, rest) => evalAddLoop fuel v rest
    | none => none

/-- Left-associative continuation of the additive level. -/
def evalAddLoop : Nat → ℚ → List Tok → Option (ℚ × List Tok)
  | 0, _, _ => none
  | fuel + 1, acc, ts =>
    match ts with
    | .plus :: rest =>
      match evalMul fuel rest with
      | some (v, r2) => evalAddLoop fuel (acc + v) r2
      | none => none
    | .minus :: rest =>
      match evalMul fuel rest with
      | some (v, r2) => evalAddLoop fuel (acc - v) r2
      | none => none
    | _ => some (acc, ts)

/-- Multiplicative level: a unary term followed by `*`/`/` chains. -/
def evalMul : Nat → List Tok → Option (ℚ × List Tok)
  | 0, _ => none
  | fuel + 1, ts =>
    match evalUnary fuel ts with
    | some (v, rest) => evalMulLoop fuel v rest
    | none => none

/-- Left-associative continuation of the multiplicative level; division
by zero is the non-finite case and fails. -/
def evalMulLoop : Nat → ℚ → List Tok → Option (ℚ × List Tok)
  | 0, _, _ => none
  | fuel + 1, acc, ts =>
    match ts with
    | .star :: rest =>
      match evalUnary fuel rest with
      | some (v, r2) => evalMulLoop fuel (acc * v) r2
      | none => none
    | .slash :: rest =>
      match evalUnary fuel rest with
      | some (v, r2) => if v = 0 then none else evalMulLoop fuel (acc / v) r2
      | none => none
    | _ => some (acc, ts)

/-- Unary signs. -/
def evalUnary : Nat → List Tok → Option (ℚ × List Tok)
  | 0, _ => none
  | fuel + 1, ts =>
    match ts with
    | .minus :: rest => (evalUnary fuel rest).map (fun p => (-p.1, p.2))
    | .plus :: rest => evalUnary fuel rest
    | _ => evalPow fuel ts

/-- Exponentiation level (right-associative, exponent may be signed). -/
def evalPow : Nat → List Tok → Option (ℚ × List Tok)
  | 0, _ => none
  | fuel + 1, ts =>
    match evalAtom fuel ts with
    | some (b, rest) =>
      match rest with
      | .pow :: rest2 =>
        match evalUnary fuel rest2 with
        | some (e, r3) =>
          match qpow b e with
          | some v => some (v, r3)
          | none => none
        | none => none
      | _ => some (b, rest)
    | none => none

/-- Atoms: numeric literals and parenthesized expressions. -/
def evalAtom : Nat → List Tok → Option (ℚ × List Tok)
  | 0, _ => none
  | fuel + 1, ts =>
    match ts with
    | .num q :: rest => some (q, rest)
    | .lparen :: rest =>
      match evalAdd fuel rest with
      | some (v, .rparen :: r2) => some (v, r2)
      | _ => none
    | _ => none
end

/-- Full-expression evaluation: the whole token list must be consumed. -/
def evalExpr (ts : List Tok) : Option ℚ :=
  match evalAdd (5 * (ts.length + 1)) ts with
  | some (v, []) => some v
  | _ => none

/-- Two right-padded decimal digits. -/
def twoDigits (k : Nat) : Str :=
  if k < 10 then '0' :: (toString k).data else (toString k).data

/-- Rounding to the nearest integer, halves away from zero, which is how
`toFixed` rounds the exact values arising here. -/
def roundHalfAway (q : ℚ) : Int :=
  if q < 0 then -⌊-q + 1 / 2⌋ else ⌊q + 1 / 2⌋

/-- Models `result.toFixed(2)`. -/
def toFixed2 (q : ℚ) : Str :=
  let n := roundHalfAway (q * 100)
  let sign : Str := if n < 0 then ['-'] else []
  let m := n.natAbs
  sign ++ (toString (m / 100)).data ++ '.' :: twoDigits (m % 100)

/-- Source: verify.ts `solveDigitExpression` — extracts maximal runs of
expression characters, keeps candidates holding both an operator and a
digit, picks the longest (leftmost on ties), rejects over-long or
ill-charactered picks, evaluates, and formats to two decimals; syntax
errors and non-finite results give `null`. -/
def solveDigitExpression (challenge : Str) : Option Str :=
  let allMatches := exprRuns challenge
  if allMatches.isEmpty then none
  else
    let candidates := (allMatches.map jsTrim).filter
      (fun s => !s.isEmpty && s.any isOpChar && s.any isDigitCh)
    match candidates with
    | [] => none
    | e :: rest =>
      let expr := rest.foldl (fun a b => if b.length ≤ a.length then a else b) e
      if 200 < expr.length || !(!expr.isEmpty && expr.all isExprChar) then none
      else
        match tokenize expr with
        | none => none
        | some ts =>
          match evalExpr ts with
          | none => none
          | some q => some (toFixed2 q)

/-- Source: verify.ts `solveChallenge` — digit path first, then the word
path (normalize, extract at least two numbers, detect the operation on
the lightly-normalized text, compute, format).  The source's final
finiteness check cannot fire over ℚ: `compute` already rejects the one
non-finite case. -/
def solveChallenge (challenge : Str) : Option Str :=
  match solveDigitExpression challenge with
  | some r => some r
  | none =>
    let normalized := normalizeChallenge challenge
    let numbers := extractNumbers normalized
    if numbers.length < 2 then none
    else
      match compute numbers (detectOperation (lightNormalize challenge)) with
      | none => none
      | some result => some (toFixed2 result)

/-! ## Guard state (state.ts) -/

/-- Source: state.ts `PendingVerification`.  The code-path fields added
later (attempt counts) do not influence any guarded decision and are not
modelled.  `prompt` and `expires_at` hold raw JSON values, matching the
unchecked casts at their creation site. -/
structure PendingVerification where
  source_tool : Str
  detected_at : Str
  verification_code : Option Str
  challenge : Option Str
  prompt : Option Json
  expires_at : Option Json

/-- Source: state.ts `MoltbookState.suspension`. -/
structure SuspensionState where
  active : Bool
  reason : Option Str
  until_ : Option Str
  seen_at : Option Str

/-- Source: state.ts `MoltbookState.cooldowns`. -/
structure Cooldowns where
  post_until : Option Str
  comment_until : Option Str
  write_until : Option Str

/-- Source: state.ts `MoltbookState`. -/
structure MoltbookState where
  safe_mode : Bool
  pending_verification : Option PendingVerification
  suspension : SuspensionState
  cooldowns : Cooldowns
  offense_count : Int
  last_write_at : Option Str

/-- Source: util.ts `isFutureIso` — false on absent or empty values,
false on unparseable dates, and otherwise a strict comparison with now. -/
def isFutureIso (now : Int) (v : Option Str) : Bool :=
  match v with
  | none => false
  | some s =>
    if s.isEmpty then false
    else
      match parseDateMs s with
      | some t => decide (now < t)
      | none => false

/-- Modelled from the spec: the maximum unresolved age of a pending
verification without an expiry (30 minutes).  The constant and the
updated `clearExpiredState` below are exercised by the repository's unit
tests but their current source file is not part of this snapshot. -/
def MAX_VERIFICATION_AGE_MS : Int := 30 * 60 * 1000

/-- Date parsing of a raw JSON expiry value: only strings parse. -/
def jsDateParse : Json → Option Int
  | .str s => parseDateMs s
  | _ => none

/-- Modelled from the spec: the expiry sweep (state.ts
`clearExpiredState`, updated version) — nulls `pending_verification`
when its `expires_at` is in the past, or when it has no `expires_at` and
its `detected_at` exceeds the 30-minute maximum age, or regardless of age
when it carries neither a verification code nor challenge text; nulls
every cooldown timestamp that is not strictly in the future. -/
def clearExpiredState (now : Int) (st : MoltbookState) : MoltbookState :=
  let pv : Option PendingVerification :=
    match st.pending_verification with
    | none => none
    | some pv =>
      let expired : Bool :=
        match pv.expires_at with
        | some e =>
          match jsDateParse e with
          | some t => decide (t < now)
          | none => false
        | none =>
          match parseDateMs pv.detected_at with
          | some d => decide (MAX_VERIFICATION_AGE_MS < now - d)
          | none => false
      let zombie : Bool := pv.verification_code.isNone && pv.challenge.isNone
      if expired || zombie then none else some pv
  { st with
    pending_verification := pv
    cooldowns :=
      { post_until :=
          if isFutureIso now st.cooldowns.post_until then st.cooldowns.post_until else none
        comment_until :=
          if isFutureIso now st.cooldowns.comment_until then st.cooldowns.comment_until else none
        write_until :=
          if isFutureIso now st.cooldowns.write_until then st.cooldowns.write_until else none } }

/-! ## Guard evaluator and orchestrator (guards.ts) -/

/-- Source: guards.ts `SAFE_WRITE_INTERVAL_MS`. -/
def SAFE_WRITE_INTERVAL_MS : Int := 15000

/-- Source: guards.ts `WRITE_TOOLS`. -/
def WRITE_TOOLS : List Str :=
  [sl "moltbook_post_create", sl "moltbook_post_delete",
   sl "moltbook_comment_create", sl "moltbook_comment", sl "moltbook_vote",
   sl "moltbook_vote_post", sl "moltbook_vote_comment",
   sl "moltbook_submolt_create", sl "moltbook_subscribe",
   sl "moltbook_unsubscribe", sl "moltbook_follow", sl "moltbook_unfollow",
   sl "moltbook_profile_update", sl "moltbook_setup_owner_email",
   sl "moltbook_raw_request"]

/-- Source: guards.ts `WriteBlockResult`.  The human-readable `message`
is display text and not modelled; `code` and `until` carry the decision. -/
structure WriteBlockResult where
  code : Str
  until_ : Option Str
deriving DecidableEq

/-- Source: guards.ts `classifyWriteKind`. -/
def classifyWriteKind (toolName : Str) : Str :=
  if includes toolName (sl "post") then sl "post"
  else if includes toolName (sl "comment") then sl "comment"
  else if includes toolName (sl "vote") then sl "vote"
  else sl "write"

/-- The safe-mode interval test `Date.now() - Date.parse(last_write_at) <
SAFE_WRITE_INTERVAL_MS`, guarded by the truthiness of `last_write_at`;
an unparseable date gives NaN, whose comparison is false. -/
def lastWriteRecent (now : Int) (lw : Option Str) : Bool :=
  match lw with
  | none => false
  | some s =>
    if s.isEmpty then false
    else
      match parseDateMs s with
      | some t => decide (now - t < SAFE_WRITE_INTERVAL_MS)
      | none => false

/-- Source: guards.ts `checkWriteBlocked` — suspension, then pending
verification, then write cooldown, then the safe-mode interval. -/
def checkWriteBlocked (now : Int) (st : MoltbookState) : Option WriteBlockResult :=
  if st.suspension.active then
    some { code := sl "account_suspended", until_ := st.suspension.until_ }
  else if st.pending_verification.isSome then
    some { code := sl "blocked_by_pending_verification", until_ := none }
  else if isFutureIso now st.cooldowns.write_until then
    some { code := sl "write_cooldown_active", until_ := none }
  else if st.safe_mode && lastWriteRecent now st.last_write_at then
    some { code := sl "safe_mode_write_interval", until_ := none }
  else none

/-- An outgoing HTTP request as `apiRequest` receives it. -/
structure Request where
  method : Str
  path : Str
  query : Option Json
  body : Option Json

/-- Source: guards.ts `RunApiToolOptions` (`isWrite === true` is the only
truthy case of the optional flag). -/
structure RunApiToolOptions where
  query : Option Json
  body : Option Json
  isWrite : Bool

/-- The observable outcome of one `runApiTool` call: the success flag and
error code of the shaped result, whether `auto_verified: true` was
surfaced, the state passed to `saveState`, and every request handed to
the transport in order. -/
structure RunOutcome where
  ok : Bool
  errorCode : Option Str
  auto_verified : Bool
  finalState : MoltbookState
  requests : List Request

/-- The pending-verification record persisted when auto-solve fails:
`{ source_tool, detected_at: nowIso(), ...verification }`. -/
def mkPending (toolName : Str) (now : Int) (v : Verification) : PendingVerification :=
  { source_tool := toolName
    detected_at := isoOfMs now
    verification_code := v.verification_code
    challenge := v.challenge
    prompt := v.prompt
    expires_at := v.expires_at }

/-- The verify submission `POST /verify` with body `{answer}` plus the
verification code when it is truthy. -/
def verifyRequest (answer : Str) (code : Option Str) : Request :=
  { method := sl "POST"
    path := sl "/verify"
    query := none
    body := some (Json.obj
      ((sl "answer", Json.str answer) ::
        (match code with
         | some c => if c.isEmpty then [] else [(sl "verification_code", Json.str c)]
         | none => []))) }

/-- Result of a completed auto-verify attempt, extended with the request
that was submitted so the orchestrator model can record it. -/
structure AutoVerifyResult where
  success : Bool
  response : ApiResponse
  request : Request

/-- Source: verify.ts `autoVerify` — routes the challenge text out of the
verification record or the known body fallback fields, solves it, and
POSTs the answer to the verify endpoint; unsolvable input gives `null`.
A non-string prompt value selected by the `??` chain would make the
JavaScript solver throw before any request; it is modelled as unsolved. -/
def autoVerify (api : Request → ApiResponse) (v : Verification) (body : Json) :
    Option AutoVerifyResult :=
  let challengeText : Option Json :=
    (v.challenge.map Json.str) <|> v.prompt <|>
      ((asStr (body.get? (sl "challenge"))).map Json.str) <|>
      ((asStr (body.get? (sl "math_challenge"))).map Json.str) <|>
      ((asStr (body.get? (sl "question"))).map Json.str)
  match challengeText with
  | none => none
  | some sel =>
    if !jsTruthy sel then none
    else
      match sel with
      | .str s =>
        match solveChallenge s with
        | none => none
        | some answer =>
          if answer.isEmpty then none
          else
            let req := verifyRequest answer v.verification_code
            let resp := api req
            some { success := resp.ok, response := resp, request := req }
      | _ => none

/-- The suspension post-flight of `runApiTool`: a detected signal marks
the account suspended; a clean successful status check clears a stale
suspension. -/
def suspensionStage (now : Int) (toolName : Str) (resp : ApiResponse)
    (st : MoltbookState) : MoltbookState :=
  match extractSuspension resp with
  | some s =>
    { st with suspension :=
        { active := true
          reason := some s.reason
          until_ := match s.until_ with
            | some j => if jsTruthy j then some (jsString j) else none
            | none => none
          seen_at := some (isoOfMs now) } }
  | none =>
    if toolName == sl "moltbook_status" && resp.ok then
      let status := jsLower (jsString (match nn (resp.body.get? (sl "status")) with
        | some v => v
        | none => .str []))
      if !includes status (sl "suspend") && !includes status (sl "ban") then
        { st with suspension :=
            { active := false, reason := none, until_ := none, seen_at := some (isoOfMs now) } }
      else st
    else st

/-- The cooldown post-flight of `runApiTool`: positive retry-after sets
the write cooldown and the post/comment cooldown for the tool's kind. -/
def cooldownStage (now : Int) (isW : Bool) (toolName : Str) (resp : ApiResponse)
    (st : MoltbookState) : MoltbookState :=
  if isW then
    let rs := extractRetrySeconds now resp
    if 0 < rs then
      let until_ := isoOfMs (now + rs * 1000)
      let kind := classifyWriteKind toolName
      { st with cooldowns :=
          { write_until := some until_
            post_until := if kind == sl "post" then some until_ else st.cooldowns.post_until
            comment_until := if kind == sl "comment" then some until_ else st.cooldowns.comment_until } }
    else st
  else st

/-- Source: guards.ts `runApiTool` — expiry sweep, pre-flight guard,
request execution, suspension and cooldown post-flight, verification
detection with the auto-solve attempt, state persistence, and result
shaping.  The transport is a function from requests to normalized
responses; `loaded` is the state `loadState` returned. -/
def runApiTool (now : Int) (api : Request → ApiResponse) (toolName : Str)
    (method : Str) (path : Str) (opts : RunApiToolOptions)
    (loaded : MoltbookState) : RunOutcome :=
  let st0 := clearExpiredState now loaded
  let isW := opts.isWrite || WRITE_TOOLS.contains toolName
  let blocked := if isW then checkWriteBlocked now st0 else none
  match blocked with
  | some b =>
    { ok := false, errorCode := some b.code, auto_verified := false
      finalState := st0, requests := [] }
  | none =>
    let req1 : Request := { method := method, path := path, query := opts.query, body := opts.body }
    let resp := api req1
    let st1 := suspensionStage now toolName resp st0
    let st2 := cooldownStage now isW toolName resp st1
    let verification := if isW then extractVerification resp else none
    match verification with
    | some v =>
      match autoVerify api v resp.body with
      | some ar =>
        if ar.success then
          { ok := true, errorCode := none, auto_verified := true
            finalState := { st2 with last_write_at := some (isoOfMs now) }
            requests := [req1, ar.request] }
        else
          { ok := false, errorCode := some (sl "verification_required"), auto_verified := false
            finalState := { st2 with pending_verification := some (mkPending toolName now v) }
            requests := [req1, ar.request] }
      | none =>
        { ok := false, errorCode := some (sl "verification_required"), auto_verified := false
          finalState := { st2 with pending_verification := some (mkPending toolName now v) }
          requests := [req1] }
    | none =>
      let st3 := if resp.ok && isW then { st2 with last_write_at := some (isoOfMs now) } else st2
      if resp.ok then
        { ok := true, errorCode := none, auto_verified := false
          finalState := st3, requests := [req1] }
      else
        { ok := false
          errorCode := some (if resp.status = 429 then sl "rate_limited" else sl "request_failed")
          auto_verified := false, finalState := st3, requests := [req1] }

/-! ## Claims -/

/-- C1: `checkWriteBlocked` evaluates blocks in strict priority order —
active suspension, then pending verification, then write cooldown, then
safe-mode interval — returning the first applicable block; in particular,
for every state with `suspension.active = true` and a non-null
`pending_verification`, it returns a block with code `account_suspended`
and never `blocked_by_pending_verification`. -/
theorem C1_suspension_priority (now : Int) (st : MoltbookState)
    (hs : st.suspension.active = true)
    (hp : st.pending_verification.isSome = true) :
    (checkWriteBlocked now st).map WriteBlockResult.code = some (sl "account_suspended") ∧
      ∀ b ∈ checkWriteBlocked now st, b.code ≠ sl "blocked_by_pending_verification" := by
  constructor
  · simp [checkWriteBlocked, hs]
  · intro b hb
    simp [checkWriteBlocked, hs] at hb
    subst hb
    show sl "account_suspended" ≠ sl "blocked_by_pending_verification"
    decide

/-- A state with an active suspension and a pending verification. -/
def stateC1 : MoltbookState :=
  { safe_mode := true
    pending_verification := some
      { source_tool := sl "moltbook_post_create", detected_at := sl "0"
        verification_code := some (sl "abc"), challenge := none
        prompt := none, expires_at := none }
    suspension := { active := true, reason := some (sl "spam"), until_ := none, seen_at := none }
    cooldowns := { post_until := none, comment_until := none, write_until := none }
    offense_count := 0
    last_write_at := none }

/-- Witness for C1 at a concrete state. -/
theorem C1_suspension_priority_witness :
    stateC1.suspension.active = true ∧ stateC1.pending_verification.isSome = true ∧
      ((checkWriteBlocked 50 stateC1).map WriteBlockResult.code = some (sl "account_suspended") ∧
        ∀ b ∈ checkWriteBlocked 50 stateC1, b.code ≠ sl "blocked_by_pending_verification") :=
  ⟨rfl, rfl, C1_suspension_priority 50 stateC1 rfl rfl⟩

/-- C6 counterexample: the claim says subtract and divide both continue
left-to-right through all remaining numbers, giving `[20, 2, 2]` under
div the value 5; the code divides only the first number by the second,
giving 10. -/
theorem C6_div_counterexample :
    compute [20, 2, 2] Op.div = some 10 ∧ compute [20, 2, 2] Op.div ≠ some 5 := by
  constructor
  · decide
  · decide

/-- C6 amended: `compute` returns null on fewer than 2 numbers; add folds
left-to-right over all the numbers (from 0), mul folds left-to-right from
the first number, and sub applies left-to-right starting from the first
two and continuing through the remaining ones; div divides the first
number by the second, ignoring any further numbers, and yields null when
the second number is zero. -/
theorem C6_compute_spec (numbers : List ℚ) (op : Op) :
    (numbers.length < 2 → compute numbers op = none) ∧
      (2 ≤ numbers.length →
        (op = .add → compute numbers op = some (numbers.foldl (· + ·) 0)) ∧
        (∀ x rest, numbers = x :: rest →
          (op = .sub → compute numbers op = some (rest.foldl (· - ·) x)) ∧
          (op = .mul → compute numbers op = some (rest.foldl (· * ·) x))) ∧
        (∀ x y rest, numbers = x :: y :: rest →
          op = .div → compute numbers op = if y = 0 then none else some (x / y))) := by
  refine ⟨fun h => by unfold compute; rw [if_pos h], fun h => ⟨?_, ?_, ?_⟩⟩
  · rintro rfl
    match numbers, h with
    | x :: rest, h => unfold compute; rw [if_neg (Nat.not_lt.mpr h)]
  · rintro x rest rfl
    exact ⟨fun hop => by subst hop; unfold compute; rw [if_neg (Nat.not_lt.mpr h)],
           fun hop => by subst hop; unfold compute; rw [if_neg (Nat.not_lt.mpr h)]⟩
  · rintro x y rest rfl hop
    subst hop
    unfold compute
    rw [if_neg (Nat.not_lt.mpr h)]

/-- Witness for C6 at the claim's own example list. -/
theorem C6_compute_spec_witness :
    2 ≤ ([20, 2, 2] : List ℚ).length ∧
      compute [20, 2, 2] Op.div = if (2 : ℚ) = 0 then none else some (20 / 2) :=
  ⟨by decide, ((C6_compute_spec [20, 2, 2] Op.div).2 (by decide)).2.2 20 2 [2] rfl rfl⟩

/-- C7: `solveDigitExpression` evaluates "2 + 3 * 4" with standard
precedence and two-decimal formatting to "14.00", returns null on
"hello" (no candidate run), and returns null on "1 / 0" (non-finite
result). -/
theorem C7_digit_examples :
    solveDigitExpression (sl "2 + 3 * 4") = some (sl "14.00") ∧
      solveDigitExpression (sl "hello") = none ∧
      solveDigitExpression (sl "1 / 0") = none := by
  refine ⟨?_, ?_, ?_⟩ <;> rfl

/-- C4: `extractVerification` never returns a non-null object that has
neither a verification code nor challenge text nor prompt text — in fact
every returned object carries a code or challenge text, so no unsolvable
zombie pending verification can be created from its output. -/
theorem C4_no_zombie_output (r : ApiResponse) (v : Verification)
    (h : extractVerification r = some v) :
    v.verification_code ≠ none ∨ v.challenge ≠ none ∨ v.prompt ≠ none := by
  simp only [extractVerification] at h
  split at h
  · exact absurd h (by simp)
  split at h
  · exact absurd h (by simp)
  split at h
  · exact absurd h (by simp)
  rename_i hgate
  injection h with hv
  subst hv
  simp only [Bool.and_eq_true, not_and] at hgate
  by_cases hcode : jsFalsyOpt (verificationCodeRaw r.body) = true
  · have hne := hgate hcode
    right; left
    cases hstr : asStr (challengeTextRaw r.body) with
    | none => rw [hstr] at hne; exact (hne rfl).elim
    | some s => simp [hstr]
  · left
    cases hc : verificationCodeRaw r.body with
    | none => rw [hc] at hcode; exact (hcode rfl).elim
    | some j =>
      rw [hc] at hcode
      simp only [jsFalsyOpt] at hcode
      have ht : jsTruthy j = true := by simpa using hcode
      simp [ht]

/-- A response carrying an explicit verification code. -/
def respC4 : ApiResponse :=
  { ok := false, status := 403, headers := []
    body := .obj [(sl "verification_code", .str (sl "vc9")),
                  (sl "message", .str (sl "please verify"))] }

/-- The verification record extracted from `respC4`. -/
def verC4 : Verification :=
  { verification_code := some (sl "vc9"), challenge := none
    prompt := some (.str (sl "please verify")), expires_at := none }

/-- Witness for C4 at a concrete response. -/
theorem C4_no_zombie_output_witness :
    extractVerification respC4 = some verC4 ∧
      (verC4.verification_code ≠ none ∨ verC4.challenge ≠ none ∨ verC4.prompt ≠ none) :=
  ⟨by rfl, C4_no_zombie_output respC4 verC4 (by rfl)⟩

/-- C5: on every response with status below 400 where none of the five
recognized code locations holds a verification code, `extractVerification`
returns null, even when the body's strings contain verification
vocabulary. -/
theorem C5_success_without_code (r : ApiResponse)
    (hs : r.status < 400) (hc : verificationCodeRaw r.body = none) :
    extractVerification r = none := by
  simp only [extractVerification, hc]
  have hfalsy : jsFalsyOpt none = true := rfl
  by_cases hk : hasVerificationKeyword r.body
  · rw [if_neg, if_pos]
    · simp [hfalsy, hs]
    · simp [hk, hfalsy]
  · rw [if_pos]
    simp [hk, hfalsy]

/-- A successful response mentioning challenge vocabulary with no code. -/
def respC5 : ApiResponse :=
  { ok := true, status := 200, headers := []
    body := .obj [(sl "message", .str (sl "Great challenge, verify your math skills"))] }

/-- Witness for C5 at a concrete response. -/
theorem C5_success_without_code_witness :
    respC5.status < 400 ∧ verificationCodeRaw respC5.body = none ∧
      extractVerification respC5 = none :=
  ⟨by decide, by rfl, C5_success_without_code respC5 (by decide) (by rfl)⟩

/-- C3: the expiry sweep nulls `pending_verification` in each of three
cases — its `expires_at` is in the past; it has no `expires_at` but its
`detected_at` is more than 30 minutes old; or, regardless of age, it
carries neither a verification code nor challenge text — and nulls every
cooldown timestamp that is not strictly in the future. -/
theorem C3_expiry_sweep (now : Int) (st : MoltbookState) :
    (∀ pv, st.pending_verification = some pv →
      ((∃ e t, pv.expires_at = some e ∧ jsDateParse e = some t ∧ t < now) →
        (clearExpiredState now st).pending_verification = none) ∧
      ((pv.expires_at = none ∧
          ∃ d, parseDateMs pv.detected_at = some d ∧ MAX_VERIFICATION_AGE_MS < now - d) →
        (clearExpiredState now st).pending_verification = none) ∧
      ((pv.verification_code = none ∧ pv.challenge = none) →
        (clearExpiredState now st).pending_verification = none)) ∧
    (isFutureIso now st.cooldowns.post_until = false →
      (clearExpiredState now st).cooldowns.post_until = none) ∧
    (isFutureIso now st.cooldowns.comment_until = false →
      (clearExpiredState now st).cooldowns.comment_until = none) ∧
    (isFutureIso now st.cooldowns.write_until = false →
      (clearExpiredState now st).cooldowns.write_until = none) := by
  refine ⟨?_, ?_, ?_, ?_⟩
  · intro pv hpv
    refine ⟨?_, ?_, ?_⟩
    · rintro ⟨e, t, he, hp, hlt⟩
      simp [clearExpiredState, hpv, he, hp, hlt]
    · rintro ⟨he, d, hd, hage⟩
      simp [clearExpiredState, hpv, he, hd, hage]
    · rintro ⟨hc, hch⟩
      simp [clearExpiredState, hpv, hc, hch]
  · intro h
    simp [clearExpiredState, h]
  · intro h
    simp [clearExpiredState, h]
  · intro h
    simp [clearExpiredState, h]

/-- A zombie pending verification: no code, no challenge text. -/
def pvC3 : PendingVerification :=
  { source_tool := sl "moltbook_verify", detected_at := sl "99"
    verification_code := none, challenge := none
    prompt := some (.str (sl "include the code")), expires_at := none }

/-- State carrying the zombie verification and a stale post cooldown. -/
def stateC3 : MoltbookState :=
  { safe_mode := true
    pending_verification := some pvC3
    suspension := { active := false, reason := none, until_ := none, seen_at := none }
    cooldowns := { post_until := some (sl "5"), comment_until := none, write_until := some (sl "90000") }
    offense_count := 0
    last_write_at := none }

/-- Witness for C3 at a concrete state and time. -/
theorem C3_expiry_sweep_witness :
    stateC3.pending_verification = some pvC3 ∧
      (pvC3.verification_code = none ∧ pvC3.challenge = none) ∧
      isFutureIso 100 stateC3.cooldowns.post_until = false ∧
      (clearExpiredState 100 stateC3).pending_verification = none ∧
      (clearExpiredState 100 stateC3).cooldowns.post_until = none :=
  ⟨rfl, ⟨rfl, rfl⟩, by decide,
    ((C3_expiry_sweep 100 stateC3).1 pvC3 rfl).2.2 ⟨rfl, rfl⟩,
    (C3_expiry_sweep 100 stateC3).2.1 (by decide)⟩

/-- C9: for every mutating call the pre-flight guard blocks, no network
request is issued and the persisted state equals the loaded state after
the expiry sweep — in particular `last_write_at`, `offense_count`,
`safe_mode` and `suspension` are unchanged by the sweep. -/
theorem C9_blocked_frame (now : Int) (api : Request → ApiResponse)
    (toolName method path : Str) (opts : RunApiToolOptions) (loaded : MoltbookState)
    (hw : (opts.isWrite || WRITE_TOOLS.contains toolName) = true)
    (hb : (checkWriteBlocked now (clearExpiredState now loaded)).isSome = true) :
    (runApiTool now api toolName method path opts loaded).requests = [] ∧
      (runApiTool now api toolName method path opts loaded).finalState =
        clearExpiredState now loaded ∧
      (clearExpiredState now loaded).last_write_at = loaded.last_write_at ∧
      (clearExpiredState now loaded).offense_count = loaded.offense_count ∧
      (clearExpiredState now loaded).safe_mode = loaded.safe_mode ∧
      (clearExpiredState now loaded).suspension = loaded.suspension := by
  obtain ⟨b, hb'⟩ := Option.isSome_iff_exists.mp hb
  refine ⟨?_, ?_, ?_, ?_, ?_, ?_⟩
  · simp only [runApiTool, hw, hb']
    simp
  · simp only [runApiTool, hw, hb']
    simp
  · simp [clearExpiredState]
  · simp [clearExpiredState]
  · simp [clearExpiredState]
  · simp [clearExpiredState]

/-- A loaded state with an active suspension. -/
def stateC9 : MoltbookState :=
  { safe_mode := true
    pending_verification := none
    suspension := { active := true, reason := some (sl "rules"), until_ := none, seen_at := none }
    cooldowns := { post_until := none, comment_until := none, write_until := none }
    offense_count := 7
    last_write_at := some (sl "42") }

/-- A transport that would answer any request successfully. -/
def apiC9 : Request → ApiResponse :=
  fun _ => { ok := true, status := 200, headers := [], body := .obj [] }

/-- Options carrying no body and no explicit write flag. -/
def optsC9 : RunApiToolOptions := { query := none, body := none, isWrite := false }

/-- Witness for C9 at a concrete blocked call. -/
theorem C9_blocked_frame_witness :
    (optsC9.isWrite || WRITE_TOOLS.contains (sl "moltbook_vote")) = true ∧
      (checkWriteBlocked 100 (clearExpiredState 100 stateC9)).isSome = true ∧
      ((runApiTool 100 apiC9 (sl "moltbook_vote") (sl "POST") (sl "/posts/1/upvote")
          optsC9 stateC9).requests = [] ∧
        (runApiTool 100 apiC9 (sl "moltbook_vote") (sl "POST") (sl "/posts/1/upvote")
            optsC9 stateC9).finalState = clearExpiredState 100 stateC9 ∧
        (clearExpiredState 100 stateC9).last_write_at = stateC9.last_write_at ∧
        (clearExpiredState 100 stateC9).offense_count = stateC9.offense_count ∧
        (clearExpiredState 100 stateC9).safe_mode = stateC9.safe_mode ∧
        (clearExpiredState 100 stateC9).suspension = stateC9.suspension) :=
  ⟨by decide, by decide,
    C9_blocked_frame 100 apiC9 (sl "moltbook_vote") (sl "POST") (sl "/posts/1/upvote")
      optsC9 stateC9 (by decide) (by decide)⟩

/-- A member of a joined list is a contiguous segment of the join. -/
theorem joinSep_decomp (sep : Str) {s : Str} :
    ∀ {l : List Str}, s ∈ l → ∃ p q, joinSep sep l = p ++ (s ++ q) := by
  intro l h
  induction l with
  | nil => cases h
  | cons a t ih =>
    rcases List.mem_cons.mp h with rfl | hmem
    · cases t with
      | nil => exact ⟨[], [], by simp [joinSep]⟩
      | cons b t2 => exact ⟨[], sep ++ joinSep sep (b :: t2), by simp [joinSep]⟩
    · match t, hmem with
      | b :: t2, hmem =>
        obtain ⟨p, q, hpq⟩ := ih hmem
        exact ⟨a ++ sep ++ p, q, by simp [joinSep, hpq]⟩

/-- C8 amended: for every normalized response whose body contains the
substring "suspended" (case-insensitively) in a string field reachable
within the depth-5 limit of the recursive string scan,
`extractSuspension` returns a non-null result.  (Strings nested deeper
than the scan limit are not examined — see the counterexample.) -/
theorem C8_suspended_detected (r : ApiResponse) (s : Str)
    (hmem : s ∈ collectStrings r.body 0)
    (hsub : sl "suspended" <:+: jsLower s) :
    extractSuspension r ≠ none := by
  obtain ⟨p, q, hpq⟩ := joinSep_decomp (sl " | ") hmem
  obtain ⟨u, v, huv⟩ := hsub
  have hinf : sl "suspended" <:+: jsLower (joinSep (sl " | ") (collectStrings r.body 0)) := by
    refine ⟨jsLower p ++ u, v ++ jsLower q, ?_⟩
    rw [hpq]
    simp only [jsLower, List.map_append] at huv ⊢
    rw [← huv]
    simp [List.append_assoc]
  have hC : includes (jsLower (joinSep (sl " | ") (collectStrings r.body 0)))
      (sl "suspended") = true := decide_eq_true hinf
  simp only [extractSuspension, hC]
  simp

/-- A body with "suspended" buried six containers deep. -/
def bodyC8 : Json :=
  .obj [(sl "a", .obj [(sl "b", .obj [(sl "c", .obj [(sl "d", .obj [(sl "e",
    .obj [(sl "f", .str (sl "suspended"))])])])])])]

/-- The normalized response around `bodyC8`. -/
def respC8 : ApiResponse := { ok := true, status := 200, headers := [], body := bodyC8 }

/-- C8 counterexample: this body holds the string "suspended" in a
string field (at nesting depth six), yet `extractSuspension` returns
null, because the recursive scan prunes below depth 5. -/
theorem C8_depth_counterexample :
    jsOptGet (jsOptGet (jsOptGet (jsOptGet (jsOptGet (bodyC8.get? (sl "a")) (sl "b"))
        (sl "c")) (sl "d")) (sl "e")) (sl "f") = some (.str (sl "suspended")) ∧
      extractSuspension respC8 = none := by
  constructor
  · rfl
  · rfl

/-- A response with a suspension message at depth 1. -/
def respC8w : ApiResponse :=
  { ok := false, status := 403, headers := []
    body := .obj [(sl "error", .str (sl "Account Suspended for spam"))] }

/-- Witness for the amended C8 at a concrete response. -/
theorem C8_suspended_detected_witness :
    sl "Account Suspended for spam" ∈ collectStrings respC8w.body 0 ∧
      sl "suspended" <:+: jsLower (sl "Account Suspended for spam") ∧
      extractSuspension respC8w ≠ none :=
  ⟨by decide, by decide,
    C8_suspended_detected respC8w (sl "Account Suspended for spam") (by decide) (by decide)⟩

/-- Every answer the digit path returns is a non-empty string. -/
theorem toFixed2_ne_nil (q : ℚ) : toFixed2 q ≠ [] := by
  simp only [toFixed2]
  intro h
  rcases List.append_eq_nil.mp h with ⟨-, h2⟩
  cases h2

/-- The digit path only produces `toFixed2` output, hence non-empty. -/
theorem solveDigitExpression_ne_nil (c ans : Str)
    (h : solveDigitExpression c = some ans) : ans ≠ [] := by
  simp only [solveDigitExpression] at h
  split at h
  · exact absurd h (by simp)
  split at h
  · exact absurd h (by simp)
  split at h
  · exact absurd h (by simp)
  split at h
  · exact absurd h (by simp)
  split at h
  · exact absurd h (by simp)
  rename_i q heq
  injection h with h
  subst h
  exact toFixed2_ne_nil q

/-- The whole solver only produces `toFixed2` output, hence non-empty. -/
theorem solveChallenge_ne_nil (c ans : Str)
    (h : solveChallenge c = some ans) : ans ≠ [] := by
  simp only [solveChallenge] at h
  split at h
  · rename_i r heq
    injection h with h
    subst h
    exact solveDigitExpression_ne_nil c r heq
  · split at h
    · exact absurd h (by simp)
    split at h
    · exact absurd h (by simp)
    rename_i q heq
    injection h with h
    subst h
    exact toFixed2_ne_nil q

/-- C2: for every mutating call whose response is a 403 carrying a digit
challenge the solver can answer and a verification code, the orchestrator
issues a second request POSTing the computed answer to the verify
endpoint; when that submission succeeds, the final result is a success
carrying `auto_verified: true`, and the persisted state's
`last_write_at` is the current time. -/
theorem C2_auto_verified_success (now : Int) (api : Request → ApiResponse)
    (toolName method path : Str) (opts : RunApiToolOptions) (loaded : MoltbookState)
    (v : Verification) (ch ans code : Str)
    (hw : (opts.isWrite || WRITE_TOOLS.contains toolName) = true)
    (hnb : checkWriteBlocked now (clearExpiredState now loaded) = none)
    (hst : (api { method := method, path := path, query := opts.query, body := opts.body }).status = 403)
    (hv : extractVerification
        (api { method := method, path := path, query := opts.query, body := opts.body }) = some v)
    (hch : v.challenge = some ch)
    (hchne : ch ≠ [])
    (hsolve : solveChallenge ch = some ans)
    (hcode : v.verification_code = some code)
    (hok2 : (api (verifyRequest ans (some code))).ok = true) :
    (runApiTool now api toolName method path opts loaded).requests =
      [{ method := method, path := path, query := opts.query, body := opts.body },
        verifyRequest ans (some code)] ∧
      (runApiTool now api toolName method path opts loaded).ok = true ∧
      (runApiTool now api toolName method path opts loaded).auto_verified = true ∧
      (runApiTool now api toolName method path opts loaded).finalState.last_write_at =
        some (isoOfMs now) := by
  have hemp : ch.isEmpty = false := by
    cases ch with
    | nil => exact absurd rfl hchne
    | cons a t => rfl
  have hansEmp : ans.isEmpty = false := by
    have hne := solveChallenge_ne_nil ch ans hsolve
    cases ans with
    | nil => exact absurd rfl hne
    | cons a t => rfl
  have hauto : autoVerify api v
      (api { method := method, path := path, query := opts.query, body := opts.body }).body =
      some { success := true
             response := api (verifyRequest ans (some code))
             request := verifyRequest ans (some code) } := by
    simp only [autoVerify, hch, Option.map_some', Option.some_orElse]
    simp [jsTruthy, hemp, hsolve, hansEmp, hcode, hok2]
  refine ⟨?_, ?_, ?_, ?_⟩ <;>
  · simp only [runApiTool, hw, hnb]
    simp [hv, hauto]

/-- A 403 body carrying a digit challenge and a verification code. -/
def bodyC2 : Json :=
  .obj [(sl "error", .str (sl "Verification required")),
        (sl "verification_code", .str (sl "abc123")),
        (sl "challenge_text", .str (sl "2 + 3"))]

/-- The 403 write response. -/
def resp403C2 : ApiResponse := { ok := false, status := 403, headers := [], body := bodyC2 }

/-- The successful verify response. -/
def verifyOkC2 : ApiResponse :=
  { ok := true, status := 200, headers := [], body := .obj [(sl "status", .str (sl "ok"))] }

/-- Transport answering the verify endpoint with success and everything
else with the challenge 403. -/
def apiC2 : Request → ApiResponse :=
  fun r => if r.path == sl "/verify" then verifyOkC2 else resp403C2

/-- A clean loaded state. -/
def stateC2 : MoltbookState :=
  { safe_mode := true, pending_verification := none
    suspension := { active := false, reason := none, until_ := none, seen_at := none }
    cooldowns := { post_until := none, comment_until := none, write_until := none }
    offense_count := 0, last_write_at := none }

/-- Options for the concrete post-creation call. -/
def optsC2 : RunApiToolOptions :=
  { query := none, body := some (.obj [(sl "title", .str (sl "Hi"))]), isWrite := false }

/-- The verification record extracted from the 403 body. -/
def verC2 : Verification :=
  { verification_code := some (sl "abc123"), challenge := some (sl "2 + 3")
    prompt := some (.str (sl "Verification required")), expires_at := none }

/-- The original request of the witness call. -/
def reqC2 : Request :=
  { method := sl "POST", path := sl "/posts", query := optsC2.query, body := optsC2.body }

/-- Witness for C2 at a concrete end-to-end call. -/
theorem C2_auto_verified_success_witness :
    (optsC2.isWrite || WRITE_TOOLS.contains (sl "moltbook_post_create")) = true ∧
      checkWriteBlocked 1000 (clearExpiredState 1000 stateC2) = none ∧
      (apiC2 reqC2).status = 403 ∧
      extractVerification (apiC2 reqC2) = some verC2 ∧
      solveChallenge (sl "2 + 3") = some (sl "5.00") ∧
      (apiC2 (verifyRequest (sl "5.00") (some (sl "abc123")))).ok = true ∧
      ((runApiTool 1000 apiC2 (sl "moltbook_post_create") (sl "POST") (sl "/posts")
          optsC2 stateC2).requests = [reqC2, verifyRequest (sl "5.00") (some (sl "abc123"))] ∧
        (runApiTool 1000 apiC2 (sl "moltbook_post_create") (sl "POST") (sl "/posts")
            optsC2 stateC2).ok = true ∧
        (runApiTool 1000 apiC2 (sl "moltbook_post_create") (sl "POST") (sl "/posts")
            optsC2 stateC2).auto_verified = true ∧
        (runApiTool 1000 apiC2 (sl "moltbook_post_create") (sl "POST") (sl "/posts")
            optsC2 stateC2).finalState.last_write_at = some (isoOfMs 1000)) :=
  ⟨rfl, rfl, rfl, by rfl, by rfl, rfl,
    C2_auto_verified_success 1000 apiC2 (sl "moltbook_post_create") (sl "POST") (sl "/posts")
      optsC2 stateC2 verC2 (sl "2 + 3") (sl "5.00") (sl "abc123")
      rfl rfl rfl (by rfl) rfl (by decide) (by rfl) rfl rfl⟩

/-! ## Idempotence of challenge normalization (C10)

The plan: the output of `normalizeChallenge` contains only lower-case
letters and spaces, has no two adjacent equal characters, and every
whitespace character in it is a single space; each pipeline stage is the
identity on such strings, and trimming is idempotent outright. -/

/-- A line terminator is never a lower-case letter. -/
theorem lineTerm_not_alpha {c : Char} (h : isLineTerm c = true) : isAlphaLower c = false := by
  simp only [isLineTerm, Bool.or_eq_true, beq_iff_eq] at h
  rcases h with ((h | h) | h) | h <;> subst h <;> decide

/-- A whitespace character is never a lower-case letter. -/
theorem wsChar_not_alpha {c : Char} (h : isWsChar c = true) : isAlphaLower c = false := by
  simp only [isWsChar, Bool.or_eq_true, beq_iff_eq] at h
  rcases h with ((((h | h) | h) | h) | h) | h <;> subst h <;> decide

/-- Lower-casing fixes lower-case letters. -/
theorem alpha_lowerChar_fix {c : Char} (h : isAlphaLower c = true) : lowerChar c = c := by
  simp only [isAlphaLower, Bool.and_eq_true, decide_eq_true_eq] at h
  unfold lowerChar
  rw [if_neg]
  rintro ⟨-, h2⟩
  exact absurd (le_trans h.1 h2) (by decide)

/-- Deduplication only keeps characters of its input. -/
theorem mem_dedupRun {c : Char} : ∀ {s : Str}, c ∈ dedupRun s → c ∈ s := by
  intro s
  induction s with
  | nil => simp [dedupRun]
  | cons a t ih =>
    cases t with
    | nil => simp [dedupRun]
    | cons b t2 =>
      simp only [dedupRun]
      split
      · intro h
        exact List.mem_cons_of_mem a (ih h)
      · intro h
        rcases List.mem_cons.mp h with rfl | h2
        · exact List.mem_cons_self _ _
        · exact List.mem_cons_of_mem a (ih h2)

/-- Deduplication keeps the first character. -/
theorem dedupRun_head? : ∀ (t : Str) (b : Char), (dedupRun (b :: t)).head? = some b := by
  intro t
  induction t with
  | nil => intro b; rfl
  | cons c t2 ih =>
    intro b
    simp only [dedupRun]
    split
    · rename_i hcond
      obtain ⟨h1, -⟩ := Bool.and_eq_true _ _ |>.mp hcond
      rw [ih c, beq_iff_eq.mp h1]
    · simp

/-- In deduplicated output, adjacent equal characters can only be line
terminators, hence (on inputs whose line terminators are whitespace)
whitespace. -/
theorem chain_dedupRun : ∀ (s : Str),
    (∀ c ∈ s, isLineTerm c = true → isWsChar c = true) →
    List.Chain' (fun a b => a = b → isWsChar a = true) (dedupRun s) := by
  intro s
  induction s with
  | nil => intro _; simp [dedupRun]
  | cons a t ih =>
    intro hmem
    cases t with
    | nil => simp [dedupRun]
    | cons b t2 =>
      have hmemT : ∀ c ∈ b :: t2, isLineTerm c = true → isWsChar c = true :=
        fun c hc => hmem c (List.mem_cons_of_mem a hc)
      simp only [dedupRun]
      split
      · exact ih hmemT
      · rename_i hcond
        rw [List.chain'_cons']
        refine ⟨?_, ih hmemT⟩
        intro y hy
        rw [dedupRun_head? t2 b] at hy
        have hby : b = y := by
          cases hy
          rfl
        intro hay
        have hab : (a == b) = true := beq_iff_eq.mpr (hay.trans hby.symm)
        have hlt : isLineTerm a = true := by
          by_contra hno
          exact hcond (by simp [hab, hno])
        exact hmem a (List.mem_cons_self _ _) hlt

/-- Whitespace collapse emits spaces and non-whitespace input characters. -/
theorem mem_collapseWs {c : Char} : ∀ {s : Str}, c ∈ collapseWs s →
    c = ' ' ∨ (c ∈ s ∧ isWsChar c = false) := by
  intro s
  induction s with
  | nil => simp [collapseWs]
  | cons a t ih =>
    cases t with
    | nil =>
      simp only [collapseWs]
      split
      · intro h
        left
        simpa using h
      · rename_i hn
        intro h
        right
        rcases List.mem_singleton.mp h with rfl
        exact ⟨List.mem_cons_self _ _, by simpa using hn⟩
    | cons b t2 =>
      simp only [collapseWs]
      split
      · split
        · intro h
          rcases ih h with h1 | ⟨h2, h3⟩
          · exact Or.inl h1
          · exact Or.inr ⟨List.mem_cons_of_mem a h2, h3⟩
        · intro h
          rcases List.mem_cons.mp h with rfl | h2
          · exact Or.inl rfl
          · rcases ih h2 with h1 | ⟨h3, h4⟩
            · exact Or.inl h1
            · exact Or.inr ⟨List.mem_cons_of_mem a h3, h4⟩
      · rename_i ha
        intro h
        rcases List.mem_cons.mp h with rfl | h2
        · exact Or.inr ⟨List.mem_cons_self _ _, by simpa using ha⟩
        · rcases ih h2 with h1 | ⟨h3, h4⟩
          · exact Or.inl h1
          · exact Or.inr ⟨List.mem_cons_of_mem a h3, h4⟩

/-- The head of collapsed output: a space when the input led with
whitespace, the leading character otherwise. -/
theorem collapseWs_head? : ∀ (t : Str) (b : Char),
    (collapseWs (b :: t)).head? = some (if isWsChar b then ' ' else b) := by
  intro t
  induction t with
  | nil =>
    intro b
    simp only [collapseWs]
    split <;> simp_all
  | cons c t2 ih =>
    intro b
    simp only [collapseWs]
    split
    · rename_i hb
      split
      · rename_i hc
        rw [ih c]
        simp [hb, hc]
      · simp [hb]
    · rename_i hb
      simp [hb]

/-- Whitespace collapse leaves no two adjacent equal characters when the
input's adjacent equal characters are all whitespace. -/
theorem chain_collapseWs : ∀ (s : Str),
    List.Chain' (fun a b => a = b → isWsChar a = true) s →
    List.Chain' (fun a b : Char => a ≠ b) (collapseWs s) := by
  intro s
  induction s with
  | nil => intro _; simp [collapseWs]
  | cons a t ih =>
    intro hch
    cases t with
    | nil =>
      simp only [collapseWs]
      split <;> simp
    | cons b t2 =>
      obtain ⟨hrel, hchT⟩ := List.chain'_cons.mp hch
      simp only [collapseWs]
      split
      · rename_i ha
        split
        · exact ih hchT
        · rename_i hb
          rw [List.chain'_cons']
          refine ⟨?_, ih hchT⟩
          intro y hy
          rw [collapseWs_head? t2 b] at hy
          have hby : (if isWsChar b then ' ' else b) = y := by
            cases hy
            rfl
          rw [if_neg (by simpa using hb)] at hby
          subst hby
          intro hsp
          rw [← hsp] at hb
          exact absurd hb (by decide)
      · rename_i ha
        rw [List.chain'_cons']
        refine ⟨?_, ih hchT⟩
        intro y hy
        rw [collapseWs_head? t2 b] at hy
        have hby : (if isWsChar b then ' ' else b) = y := by
          cases hy
          rfl
        by_cases hb : isWsChar b = true
        · rw [if_pos hb] at hby
          subst hby
          intro hsp
          rw [hsp] at ha
          exact absurd ha (by decide)
        · rw [if_neg hb] at hby
          subst hby
          intro hab
          rw [hrel hab] at ha
          exact ha rfl

/-- Members of `dropWhile` output are members of the input. -/
theorem mem_dropWhileMem {p : Char → Bool} : ∀ {l : Str} {c : Char},
    c ∈ l.dropWhile p → c ∈ l := by
  intro l
  induction l with
  | nil => intro c h; exact h
  | cons a t ih =>
    intro c h
    rw [List.dropWhile_cons] at h
    split at h
    · exact List.mem_cons_of_mem a (ih h)
    · exact h

/-- Members of the trimmed string are members of the input. -/
theorem mem_jsTrim {s : Str} {c : Char} (h : c ∈ jsTrim s) : c ∈ s := by
  unfold jsTrim at h
  rw [List.mem_reverse] at h
  have h2 := mem_dropWhileMem h
  rw [List.mem_reverse] at h2
  exact mem_dropWhileMem h2

/-- Dropping a prefix preserves adjacent-pair invariants. -/
theorem chain_dropWhile {R : Char → Char → Prop} (p : Char → Bool) :
    ∀ {l : Str}, List.Chain' R l → List.Chain' R (l.dropWhile p) := by
  intro l
  induction l with
  | nil => intro h; exact h
  | cons a t ih =>
    intro h
    rw [List.dropWhile_cons]
    split
    · exact ih (List.chain'_cons'.mp h).2
    · exact h

/-- Trimming preserves the no-adjacent-equal invariant. -/
theorem chain_jsTrim {s : Str} (h : List.Chain' (fun a b : Char => a ≠ b) s) :
    List.Chain' (fun a b : Char => a ≠ b) (jsTrim s) := by
  unfold jsTrim
  rw [List.chain'_reverse]
  refine List.Chain'.imp (fun a b hab => Ne.symm hab) ?_
  apply chain_dropWhile
  rw [List.chain'_reverse]
  refine List.Chain'.imp (fun a b hab => Ne.symm hab) ?_
  exact chain_dropWhile _ h

/-- The head surviving `dropWhile` fails the predicate. -/
theorem dropWhile_head_not (p : Char → Bool) :
    ∀ (l : Str) {c : Char}, (l.dropWhile p).head? = some c → p c = false := by
  intro l
  induction l with
  | nil => intro c h; cases h
  | cons a t ih =>
    intro c h
    rw [List.dropWhile_cons] at h
    split at h
    · exact ih h
    · rename_i hpa
      cases h
      simpa using hpa

/-- `dropWhile` is the identity when the head fails the predicate. -/
theorem dropWhile_of_head_false (p : Char → Bool) (l : Str)
    (h : ∀ c, l.head? = some c → p c = false) : l.dropWhile p = l := by
  cases l with
  | nil => rfl
  | cons a t =>
    rw [List.dropWhile_cons, if_neg]
    simp [h a rfl]

/-- Trimming is idempotent. -/
theorem jsTrim_idem (s : Str) : jsTrim (jsTrim s) = jsTrim s := by
  unfold jsTrim
  have h1 : (((s.dropWhile isWsChar).reverse.dropWhile isWsChar).reverse.dropWhile isWsChar)
      = ((s.dropWhile isWsChar).reverse.dropWhile isWsChar).reverse := by
    apply dropWhile_of_head_false
    intro c hc
    rw [List.head?_reverse] at hc
    rcases List.dropWhile_suffix (l := (s.dropWhile isWsChar).reverse) isWsChar with ⟨u, hu⟩
    have hCne : (s.dropWhile isWsChar).reverse.dropWhile isWsChar ≠ [] := by
      intro h0
      rw [h0] at hc
      cases hc
    have h2 : ((s.dropWhile isWsChar).reverse).getLast? = some c := by
      rw [← hu, List.getLast?_append_of_ne_nil _ hCne]
      exact hc
    rw [List.getLast?_reverse] at h2
    exact dropWhile_head_not isWsChar _ h2
  rw [h1, List.reverse_reverse, List.dropWhile_idempotent]

/-- A map whose function fixes every member is the identity. -/
theorem map_fix {f : Char → Char} : ∀ {l : Str}, (∀ c ∈ l, f c = c) → l.map f = l := by
  intro l
  induction l with
  | nil => intro _; rfl
  | cons a t ih =>
    intro h
    simp only [List.map_cons]
    rw [h a (List.mem_cons_self _ _), ih (fun c hc => h c (List.mem_cons_of_mem a hc))]

/-- Deduplication is the identity on strings with no adjacent equals. -/
theorem dedupRun_fix : ∀ {s : Str}, List.Chain' (fun a b : Char => a ≠ b) s →
    dedupRun s = s := by
  intro s
  induction s with
  | nil => intro _; rfl
  | cons a t ih =>
    intro h
    cases t with
    | nil => rfl
    | cons b t2 =>
      obtain ⟨hab, ht⟩ := List.chain'_cons.mp h
      simp only [dedupRun]
      rw [if_neg (by simp [hab]), ih ht]

/-- Whitespace collapse is the identity on strings whose whitespace is
all single spaces with no adjacent equals. -/
theorem collapseWs_fix : ∀ {s : Str},
    (∀ c ∈ s, isWsChar c = true → c = ' ') →
    List.Chain' (fun a b : Char => a ≠ b) s →
    collapseWs s = s := by
  intro s
  induction s with
  | nil => intro _ _; rfl
  | cons a t ih =>
    intro hws hch
    cases t with
    | nil =>
      simp only [collapseWs]
      split
      · rename_i ha
        rw [hws a (List.mem_cons_self _ _) ha]
      · rfl
    | cons b t2 =>
      obtain ⟨hab, ht⟩ := List.chain'_cons.mp hch
      have hwsT : ∀ c ∈ b :: t2, isWsChar c = true → c = ' ' :=
        fun c hc => hws c (List.mem_cons_of_mem a hc)
      simp only [collapseWs]
      split
      · rename_i ha
        split
        · rename_i hb
          exact absurd ((hws a (List.mem_cons_self _ _) ha).trans
            (hwsT b (List.mem_cons_self _ _) hb).symm) hab
        · rw [ih hwsT ht, hws a (List.mem_cons_self _ _) ha]
      · rw [ih hwsT ht]

/-- The non-alpha strip is the identity on letters-and-spaces strings. -/
theorem strip_fix {s : Str} (h : ∀ c ∈ s, (isAlphaLower c || c == ' ') = true) :
    stripNonAlphaSpace s = s := by
  unfold stripNonAlphaSpace
  rw [List.filter_eq_self]
  intro c hc
  rcases Bool.or_eq_true _ _ |>.mp (h c hc) with ha | hsp
  · simp [ha]
  · rw [beq_iff_eq.mp hsp]
    decide

/-- Every character of normalized output is a lower-case letter or a
space. -/
theorem normalize_mem (s : Str) :
    ∀ c ∈ normalizeChallenge s, (isAlphaLower c || c == ' ') = true := by
  intro c hc
  unfold normalizeChallenge at hc
  have h1 := mem_jsTrim hc
  rcases mem_collapseWs h1 with rfl | ⟨h2, hnws⟩
  · simp
  · have h3 := mem_dedupRun h2
    have h4 := (List.mem_filter.mp h3).2
    rcases Bool.or_eq_true _ _ |>.mp h4 with ha | hw
    · simp [ha]
    · rw [hw] at hnws
      cases hnws

/-- Normalized output has no two adjacent equal characters. -/
theorem normalize_chain (s : Str) :
    List.Chain' (fun a b : Char => a ≠ b) (normalizeChallenge s) := by
  unfold normalizeChallenge
  apply chain_jsTrim
  apply chain_collapseWs
  apply chain_dedupRun
  intro c hc hl
  have h4 := (List.mem_filter.mp hc).2
  rcases Bool.or_eq_true _ _ |>.mp h4 with ha | hw
  · rw [lineTerm_not_alpha hl] at ha
    cases ha
  · exact hw

/-- Every whitespace character of normalized output is a space. -/
theorem normalize_ws_space (s : Str) :
    ∀ c ∈ normalizeChallenge s, isWsChar c = true → c = ' ' := by
  intro c hc hw
  rcases Bool.or_eq_true _ _ |>.mp (normalize_mem s c hc) with ha | hsp
  · rw [wsChar_not_alpha hw] at ha
    cases ha
  · exact beq_iff_eq.mp hsp

/-- C10: `normalizeChallenge` is idempotent — applying it to its own
output returns that output unchanged. -/
theorem C10_normalizeChallenge_idem (s : Str) :
    normalizeChallenge (normalizeChallenge s) = normalizeChallenge s := by
  have hmem := normalize_mem s
  have hch := normalize_chain s
  have hws := normalize_ws_space s
  have hlow : jsLower (normalizeChallenge s) = normalizeChallenge s :=
    map_fix (fun c hc => by
      rcases Bool.or_eq_true _ _ |>.mp (hmem c hc) with ha | hsp
      · exact alpha_lowerChar_fix ha
      · rw [beq_iff_eq.mp hsp]
        decide)
  have hstrip : stripNonAlphaSpace (normalizeChallenge s) = normalizeChallenge s :=
    strip_fix hmem
  have hded : dedupRun (normalizeChallenge s) = normalizeChallenge s := dedupRun_fix hch
  have hcol : collapseWs (normalizeChallenge s) = normalizeChallenge s :=
    collapseWs_fix hws hch
  show jsTrim (collapseWs (dedupRun (stripNonAlphaSpace (jsLower (normalizeChallenge s)))))
      = normalizeChallenge s
  rw [hlow, hstrip, hded, hcol]
  exact jsTrim_idem (collapseWs (dedupRun (stripNonAlphaSpace (jsLower s))))

end Moltbook
